import Mathlib

/-!
Shallow embedding of the `ccsds-packet` crate (`src/lib.rs`): cFS-flavor CCSDS
command and telemetry packet headers over an opaque, fixed-size payload.

Modelling conventions:
* A Rust `u8` byte is a `Nat`; casts `as u8` become `% 256`. A packet's
  `payload: T` (an opaque `Copy` value of size `size_of::<T>()`) is modelled by
  its raw bytes, a `List Nat` of that length.
* `size_of::<Command<T>>()` is `8 + payloadSize` and
  `size_of::<Telemetry<T>>()` is `16 + payloadSize` (`repr(C)`: the
  byte-array header followed by the payload bytes).
* Rust's `Result<X, ()>` becomes `Option X`; a `&mut self` setter returning
  `Result<(), ()>` becomes a function returning the updated value paired with
  a `Bool` success flag (on failure the value is returned unchanged, exactly
  as the source leaves `self` untouched).
* Bit operations (`>>`, `<<`, `&`, `|`) are the corresponding `Nat` bitwise
  operations; `u16::wrapping_add(1)` is `(· + 1) % 65536`.
-/

namespace Ccsds

/-- A cFS-flavor CCSDS command packet: 8 header bytes plus payload bytes. -/
structure Command where
  header : List Nat
  payload : List Nat
deriving DecidableEq

/-- A cFS-flavor CCSDS telemetry packet: 16 header bytes plus payload bytes. -/
structure Telemetry where
  header : List Nat
  payload : List Nat
deriving DecidableEq

/-- Rust `size_of::<Command<T>>()` for a payload type of size `payloadSize`. -/
def Command.size_of (payloadSize : Nat) : Nat := 8 + payloadSize

/-- Rust `size_of::<Telemetry<T>>()` for a payload type of size `payloadSize`. -/
def Telemetry.size_of (payloadSize : Nat) : Nat := 16 + payloadSize

/-- Embedding of `Command::new(msg_id, function_code, payload)`. -/
def Command.new (msg_id function_code : Nat) (payload : List Nat) : Option Command :=
  let len_field := Command.size_of payload.length - 7
  if 0x1800 ≤ msg_id ∧ msg_id ≤ 0x1FFF ∧ function_code ≤ 0x7F ∧ len_field ≤ 0xFFFF then
    some { header := [(msg_id >>> 8) % 256, msg_id % 256,
                      0xC0, 0x00,
                      (len_field >>> 8) % 256, len_field % 256,
                      function_code % 256, 0x00],
           payload := payload }
  else
    none

/-- Embedding of `Command::new_default(msg_id, function_code)`: `new` with the
payload bytes of `T::default()`. -/
def Command.new_default (msg_id function_code : Nat) (defaultPayload : List Nat) :
    Option Command :=
  Command.new msg_id function_code defaultPayload

/-- Embedding of `Command::as_bytes`: the in-memory bytes, header then payload. -/
def Command.as_bytes (c : Command) : List Nat :=
  c.header ++ c.payload

/-- Embedding of `Command::from_bytes(bytes)` for payload size `payloadSize`. -/
def Command.from_bytes (payloadSize : Nat) (bytes : List Nat) : Option Command :=
  if bytes.length ≠ Command.size_of payloadSize then
    none
  else
    let msg_id := ((bytes.getD 0 0) <<< 8) ||| (bytes.getD 1 0)
    let msg_len := (((bytes.getD 4 0) <<< 8) ||| (bytes.getD 5 0)) + 7
    if ¬(0x1800 ≤ msg_id ∧ msg_id ≤ 0x1FFF) ∨ msg_len ≠ Command.size_of payloadSize
        ∨ (bytes.getD 2 0) &&& 0xC0 ≠ 0xC0 ∨ (bytes.getD 6 0) &&& 0x80 ≠ 0 then
      none
    else
      some { header := bytes.take 8, payload := bytes.drop 8 }

/-- Embedding of `Command::msg_id`, including the source's `>> 8` on
`header[0]` (the source reads `((self.header[0] as u32) >> 8) | (self.header[1] as u32)`). -/
def Command.msg_id (c : Command) : Nat :=
  ((c.header.getD 0 0) >>> 8) ||| (c.header.getD 1 0)

/-- Embedding of `Command::function_code`. -/
def Command.function_code (c : Command) : Nat :=
  c.header.getD 6 0

/-- Embedding of `Command::set_msg_id`. -/
def Command.set_msg_id (c : Command) (msg_id : Nat) : Command × Bool :=
  if 0x1800 ≤ msg_id ∧ msg_id ≤ 0x1FFF then
    ({ c with header := (c.header.set 0 ((msg_id >>> 8) % 256)).set 1 (msg_id % 256) }, true)
  else
    (c, false)

/-- Embedding of `Command::set_function_code`. -/
def Command.set_function_code (c : Command) (function_code : Nat) : Command × Bool :=
  if function_code ≤ 0x7F then
    ({ c with header := c.header.set 6 (function_code % 256) }, true)
  else
    (c, false)

/-- Embedding of `Telemetry::new(msg_id, payload)`. -/
def Telemetry.new (msg_id : Nat) (payload : List Nat) : Option Telemetry :=
  let len_field := Telemetry.size_of payload.length - 7
  if 0x0800 ≤ msg_id ∧ msg_id ≤ 0x0FFF ∧ len_field ≤ 0xFFFF then
    some { header := [(msg_id >>> 8) % 256, msg_id % 256,
                      0xC0, 0x00,
                      (len_field >>> 8) % 256, len_field % 256,
                      0, 0, 0, 0,
                      0, 0,
                      0, 0, 0, 0],
           payload := payload }
  else
    none

/-- Embedding of `Telemetry::new_default(msg_id)`: `new` with the payload
bytes of `T::default()`. -/
def Telemetry.new_default (msg_id : Nat) (defaultPayload : List Nat) : Option Telemetry :=
  Telemetry.new msg_id defaultPayload

/-- Embedding of `Telemetry::as_bytes`: the in-memory bytes, header then payload. -/
def Telemetry.as_bytes (t : Telemetry) : List Nat :=
  t.header ++ t.payload

/-- Embedding of `Telemetry::from_bytes(bytes)` for payload size `payloadSize`. -/
def Telemetry.from_bytes (payloadSize : Nat) (bytes : List Nat) : Option Telemetry :=
  if bytes.length ≠ Telemetry.size_of payloadSize then
    none
  else
    let msg_id := ((bytes.getD 0 0) <<< 8) ||| (bytes.getD 1 0)
    let msg_len := (((bytes.getD 4 0) <<< 8) ||| (bytes.getD 5 0)) + 7
    if ¬(0x0800 ≤ msg_id ∧ msg_id ≤ 0x0FFF) ∨ msg_len ≠ Telemetry.size_of payloadSize
        ∨ (bytes.getD 2 0) &&& 0xC0 ≠ 0xC0 then
      none
    else
      some { header := bytes.take 16, payload := bytes.drop 16 }

/-- Embedding of `Telemetry::msg_id`, including the source's `>> 8` on
`header[0]` (the source reads `((self.header[0] as u32) >> 8) | (self.header[1] as u32)`). -/
def Telemetry.msg_id (t : Telemetry) : Nat :=
  ((t.header.getD 0 0) >>> 8) ||| (t.header.getD 1 0)

/-- Embedding of `Telemetry::timestamp`: `(seconds, subseconds)` decoded
big-endian from header bytes 6..9 and 10..11. -/
def Telemetry.timestamp (t : Telemetry) : Nat × Nat :=
  let seconds := ((t.header.getD 6 0) <<< 24) ||| ((t.header.getD 7 0) <<< 16)
      ||| ((t.header.getD 8 0) <<< 8) ||| (t.header.getD 9 0)
  let subsecs := ((t.header.getD 10 0) <<< 8) ||| (t.header.getD 11 0)
  (seconds, subsecs)

/-- Embedding of `Telemetry::sequence_number`. -/
def Telemetry.sequence_number (t : Telemetry) : Nat :=
  let sequence_header := ((t.header.getD 2 0) <<< 8) ||| (t.header.getD 3 0)
  sequence_header &&& 0x3FFF

/-- Embedding of `Telemetry::set_msg_id`. -/
def Telemetry.set_msg_id (t : Telemetry) (msg_id : Nat) : Telemetry × Bool :=
  if 0x0800 ≤ msg_id ∧ msg_id ≤ 0x0FFF then
    ({ t with header := (t.header.set 0 ((msg_id >>> 8) % 256)).set 1 (msg_id % 256) }, true)
  else
    (t, false)

/-- Embedding of `Telemetry::set_timestamp(seconds, nanoseconds)`; the `u8`
casts of the byte stores become `% 256`. -/
def Telemetry.set_timestamp (t : Telemetry) (seconds nanoseconds : Nat) : Telemetry :=
  let subsecs := (nanoseconds * (1 <<< 16)) / 1000000000
  let h0 := t.header.set 6 ((seconds >>> 24) % 256)
  let h1 := h0.set 7 ((seconds >>> 16) % 256)
  let h2 := h1.set 8 ((seconds >>> 8) % 256)
  let h3 := h2.set 9 (seconds % 256)
  let h4 := h3.set 10 ((subsecs >>> 8) % 256)
  { t with header := h4.set 11 (subsecs % 256) }

/-- Embedding of `Telemetry::increment_sequence_num`; `u16::wrapping_add(1)`
becomes `(· + 1) % 65536`. -/
def Telemetry.increment_sequence_num (t : Telemetry) : Telemetry :=
  let sequence_header := ((t.header.getD 2 0) <<< 8) ||| (t.header.getD 3 0)
  let new_sequence_header := (((sequence_header + 1) % 65536) &&& 0x3FFF) ||| 0xC000
  let h0 := t.header.set 2 ((new_sequence_header >>> 8) % 256)
  { t with header := h0.set 3 (new_sequence_header % 256) }

/-- Embedding of `fill_char_array::<S, N>(string, ensure_null_termination)`.
The source computes `N - 1` with unchecked `usize` subtraction when
`ensure_null_termination` holds; for `N = 0` that subtraction underflows (a
panic in debug builds, and in release builds the wrapped bound leads to an
out-of-bounds write for non-empty input), so the model returns `none` there.
The copy loop `output[i] = bytes[i]` for `i < min(len, max_untruncated_len)`
over the zero-initialized output array is a `foldl` of `List.set` over
`List.range`. -/
def fill_char_array (N : Nat) (string : List Nat) (ensure_null_termination : Bool) :
    Option (List Nat × Bool) :=
  if ensure_null_termination ∧ N = 0 then
    none
  else
    let output := List.replicate N 0
    let bytes := string
    let max_untruncated_len := if ensure_null_termination then N - 1 else N
    let is_truncated := decide (max_untruncated_len < bytes.length)
      || (decide (bytes.length = max_untruncated_len) && !(bytes.any fun b => 0 == b))
    some ((List.range (min bytes.length max_untruncated_len)).foldl
        (fun out i => out.set i (bytes.getD i 0)) output,
      is_truncated)

/-! ### Arithmetic helper lemmas -/

theorem and_255_eq_mod (x : Nat) : x &&& 255 = x % 256 := by
  simpa using Nat.and_pow_two_sub_one_eq_mod x 8

theorem and_16383_eq_mod (x : Nat) : x &&& 16383 = x % 16384 := by
  simpa using Nat.and_pow_two_sub_one_eq_mod x 14

theorem and_128_eq_zero (x : Nat) (h : x < 128) : x &&& 128 = 0 := by
  have h1 : x.testBit 7 = false := Nat.testBit_lt_two_pow (by norm_num; omega)
  have h2 := Nat.and_two_pow x 7
  simpa [h1] using h2

theorem shiftLeft_or_eq_add (a b n : Nat) (hb : b < 2 ^ n) :
    a <<< n ||| b = 2 ^ n * a + b := by
  apply Nat.eq_of_testBit_eq
  intro i
  rw [Nat.testBit_mul_pow_two_add a hb i, Nat.testBit_or, Nat.testBit_shiftLeft]
  by_cases hi : i < n
  · have h1 : ¬ n ≤ i := by omega
    simp [hi, h1]
  · have h1 : n ≤ i := by omega
    have hbi : b.testBit i = false :=
      Nat.testBit_lt_two_pow (lt_of_lt_of_le hb (Nat.pow_le_pow_right (by norm_num) h1))
    simp [hi, h1, hbi]

theorem or_eq_add_of_dvd (n a b : Nat) (ha : 2 ^ n ∣ a) (hb : b < 2 ^ n) :
    a ||| b = a + b := by
  obtain ⟨k, rfl⟩ := ha
  have h1 : 2 ^ n * k = k <<< n := by rw [Nat.shiftLeft_eq]; ring
  rw [h1, shiftLeft_or_eq_add k b n hb, ← h1]

theorem or8_eq_add (a b : Nat) (hb : b < 256) : a <<< 8 ||| b = 256 * a + b := by
  have := shiftLeft_or_eq_add a b 8 (by simpa using hb)
  simpa using this

theorem recomb16 (x : Nat) : ((x >>> 8) % 256) <<< 8 ||| x % 256 = x % 65536 := by
  rw [or8_eq_add _ _ (Nat.mod_lt _ (by norm_num))]
  rw [Nat.shiftRight_eq_div_pow]
  norm_num
  omega

theorem shiftLeft_or_distrib (a b n : Nat) : (a ||| b) <<< n = a <<< n ||| b <<< n := by
  apply Nat.eq_of_testBit_eq
  intro i
  by_cases h : n ≤ i <;> simp [Nat.testBit_shiftLeft, Nat.testBit_or, h, ge_iff_le]

theorem recomb32 (s : Nat) :
    ((s >>> 24) % 256) <<< 24 ||| ((s >>> 16) % 256) <<< 16 |||
      ((s >>> 8) % 256) <<< 8 ||| s % 256 = s % 4294967296 := by
  rw [Nat.or_assoc, recomb16 s]
  have hA : ((s >>> 24) % 256) <<< 24 = (((s >>> 24) % 256) <<< 8) <<< 16 := by
    rw [Nat.shiftLeft_eq, Nat.shiftLeft_eq, Nat.shiftLeft_eq]
    rw [Nat.mul_assoc]
  rw [hA, ← shiftLeft_or_distrib,
    or8_eq_add _ _ (Nat.mod_lt _ (show 0 < 256 by norm_num)),
    shiftLeft_or_eq_add _ _ 16 (show s % 65536 < 2 ^ 16 from Nat.mod_lt _ (by norm_num))]
  rw [Nat.shiftRight_eq_div_pow, Nat.shiftRight_eq_div_pow]
  show 65536 * (256 * (s / 16777216 % 256) + s / 65536 % 256) + s % 65536 = s % 4294967296
  omega

/-! ### List helper lemmas -/

theorem getD_set_self (l : List Nat) (i v : Nat) (h : i < l.length) :
    (l.set i v).getD i 0 = v := by
  rw [List.getD_eq_getElem?_getD, List.getElem?_set_self h]
  rfl

theorem getD_set_ne (l : List Nat) (i j v : Nat) (h : i ≠ j) :
    (l.set i v).getD j 0 = l.getD j 0 := by
  rw [List.getD_eq_getElem?_getD, List.getElem?_set_ne h, ← List.getD_eq_getElem?_getD]

theorem getD_take_lt (l : List Nat) (i n : Nat) (h : i < n) :
    (l.take n).getD i 0 = l.getD i 0 := by
  rw [List.getD_eq_getElem?_getD, List.getElem?_take, if_pos h, ← List.getD_eq_getElem?_getD]

theorem getD_lt_256 (l : List Nat) (hb : ∀ x ∈ l, x < 256) (i : Nat) : l.getD i 0 < 256 := by
  by_cases h : i < l.length
  · rw [List.getD_eq_getElem l 0 h]
    exact hb _ (List.getElem_mem h)
  · rw [List.getD_eq_getElem?_getD, List.getElem?_eq_none (by omega)]
    norm_num

theorem exists_eight (l : List Nat) (h : l.length = 8) :
    ∃ b0 b1 b2 b3 b4 b5 b6 b7, l = [b0, b1, b2, b3, b4, b5, b6, b7] := by
  obtain ⟨b0, l, rfl⟩ := List.exists_cons_of_ne_nil (show l ≠ [] by rintro rfl; simp at h)
  have h : l.length = 7 := by simpa using h
  obtain ⟨b1, l, rfl⟩ := List.exists_cons_of_ne_nil (show l ≠ [] by rintro rfl; simp at h)
  have h : l.length = 6 := by simpa using h
  obtain ⟨b2, l, rfl⟩ := List.exists_cons_of_ne_nil (show l ≠ [] by rintro rfl; simp at h)
  have h : l.length = 5 := by simpa using h
  obtain ⟨b3, l, rfl⟩ := List.exists_cons_of_ne_nil (show l ≠ [] by rintro rfl; simp at h)
  have h : l.length = 4 := by simpa using h
  obtain ⟨b4, l, rfl⟩ := List.exists_cons_of_ne_nil (show l ≠ [] by rintro rfl; simp at h)
  have h : l.length = 3 := by simpa using h
  obtain ⟨b5, l, rfl⟩ := List.exists_cons_of_ne_nil (show l ≠ [] by rintro rfl; simp at h)
  have h : l.length = 2 := by simpa using h
  obtain ⟨b6, l, rfl⟩ := List.exists_cons_of_ne_nil (show l ≠ [] by rintro rfl; simp at h)
  have h : l.length = 1 := by simpa using h
  obtain ⟨b7, l, rfl⟩ := List.exists_cons_of_ne_nil (show l ≠ [] by rintro rfl; simp at h)
  have h : l.length = 0 := by simpa using h
  obtain rfl : l = [] := List.eq_nil_of_length_eq_zero h
  exact ⟨b0, b1, b2, b3, b4, b5, b6, b7, rfl⟩

theorem exists_sixteen (l : List Nat) (h : l.length = 16) :
    ∃ b0 b1 b2 b3 b4 b5 b6 b7 b8 b9 b10 b11 b12 b13 b14 b15,
      l = [b0, b1, b2, b3, b4, b5, b6, b7, b8, b9, b10, b11, b12, b13, b14, b15] := by
  obtain ⟨b0, l, rfl⟩ := List.exists_cons_of_ne_nil (show l ≠ [] by rintro rfl; simp at h)
  have h : l.length = 15 := by simpa using h
  obtain ⟨b1, l, rfl⟩ := List.exists_cons_of_ne_nil (show l ≠ [] by rintro rfl; simp at h)
  have h : l.length = 14 := by simpa using h
  obtain ⟨b2, l, rfl⟩ := List.exists_cons_of_ne_nil (show l ≠ [] by rintro rfl; simp at h)
  have h : l.length = 13 := by simpa using h
  obtain ⟨b3, l, rfl⟩ := List.exists_cons_of_ne_nil (show l ≠ [] by rintro rfl; simp at h)
  have h : l.length = 12 := by simpa using h
  obtain ⟨b4, l, rfl⟩ := List.exists_cons_of_ne_nil (show l ≠ [] by rintro rfl; simp at h)
  have h : l.length = 11 := by simpa using h
  obtain ⟨b5, l, rfl⟩ := List.exists_cons_of_ne_nil (show l ≠ [] by rintro rfl; simp at h)
  have h : l.length = 10 := by simpa using h
  obtain ⟨b6, l, rfl⟩ := List.exists_cons_of_ne_nil (show l ≠ [] by rintro rfl; simp at h)
  have h : l.length = 9 := by simpa using h
  obtain ⟨b7, l, rfl⟩ := List.exists_cons_of_ne_nil (show l ≠ [] by rintro rfl; simp at h)
  have h : l.length = 8 := by simpa using h
  obtain ⟨b8, b9, b10, b11, b12, b13, b14, b15, rfl⟩ := exists_eight l h
  exact ⟨b0, b1, b2, b3, b4, b5, b6, b7, b8, b9, b10, b11, b12, b13, b14, b15, rfl⟩

theorem foldl_set_range (s out : List Nat) (k : Nat) (hk : k ≤ s.length) (hk2 : k ≤ out.length) :
    (List.range k).foldl (fun o i => o.set i (s.getD i 0)) out = s.take k ++ out.drop k := by
  induction k with
  | zero => simp
  | succ n ih =>
    rw [List.range_succ, List.foldl_append, ih (by omega) (by omega)]
    simp only [List.foldl_cons, List.foldl_nil]
    have hlt : n < s.length := by omega
    have hlo : n < out.length := by omega
    have hlen : (s.take n).length = n := by
      simp only [List.length_take]
      omega
    rw [List.set_append, hlen, if_neg (lt_irrefl n), Nat.sub_self,
      List.drop_eq_getElem_cons hlo, List.set_cons_zero]
    rw [List.getD_eq_getElem s 0 hlt]
    rw [List.take_succ, List.getElem?_eq_getElem hlt, List.append_assoc]
    rfl

/-! ### Well-formedness invariants of validly-constructed packets -/

/-- Header invariants that `Command::new` and `Command::from_bytes` establish,
that every setter preserves, and that `Command::from_bytes` checks. -/
structure Command.WF (c : Command) : Prop where
  hlen : c.header.length = 8
  hlo : 0x1800 ≤ (c.header.getD 0 0) <<< 8 ||| c.header.getD 1 0
  hhi : (c.header.getD 0 0) <<< 8 ||| c.header.getD 1 0 ≤ 0x1FFF
  hml : ((c.header.getD 4 0) <<< 8 ||| c.header.getD 5 0) + 7 = 8 + c.payload.length
  hseq : c.header.getD 2 0 &&& 0xC0 = 0xC0
  hfc : c.header.getD 6 0 &&& 0x80 = 0

/-- Header invariants that `Telemetry::new` and `Telemetry::from_bytes`
establish, that every setter preserves, and that `Telemetry::from_bytes`
checks. -/
structure Telemetry.WF (t : Telemetry) : Prop where
  hlen : t.header.length = 16
  hlo : 0x0800 ≤ (t.header.getD 0 0) <<< 8 ||| t.header.getD 1 0
  hhi : (t.header.getD 0 0) <<< 8 ||| t.header.getD 1 0 ≤ 0x0FFF
  hml : ((t.header.getD 4 0) <<< 8 ||| t.header.getD 5 0) + 7 = 16 + t.payload.length
  hseq : t.header.getD 2 0 &&& 0xC0 = 0xC0

theorem command_new_wf {m f : Nat} {p : List Nat} {c : Command}
    (h : Command.new m f p = some c) : c.WF := by
  simp only [Command.new, Command.size_of] at h
  split at h
  case isFalse => exact absurd h (by simp)
  case isTrue hc =>
    obtain ⟨h1, h2, h3, h4⟩ := hc
    injection h with h
    subst h
    refine ⟨rfl, ?_, ?_, ?_, ?_, ?_⟩
    · show 0x1800 ≤ ((m >>> 8) % 256) <<< 8 ||| m % 256
      rw [recomb16]
      omega
    · show ((m >>> 8) % 256) <<< 8 ||| m % 256 ≤ 0x1FFF
      rw [recomb16]
      omega
    · show ((((8 + p.length - 7) >>> 8) % 256) <<< 8 ||| (8 + p.length - 7) % 256) + 7
          = 8 + p.length
      rw [recomb16]
      omega
    · show (0xC0 : Nat) &&& 0xC0 = 0xC0
      decide
    · show f % 256 &&& 0x80 = 0
      rw [Nat.mod_eq_of_lt (by omega)]
      exact and_128_eq_zero f (by omega)

theorem telemetry_new_wf {m : Nat} {p : List Nat} {t : Telemetry}
    (h : Telemetry.new m p = some t) : t.WF := by
  simp only [Telemetry.new, Telemetry.size_of] at h
  split at h
  case isFalse => exact absurd h (by simp)
  case isTrue hc =>
    obtain ⟨h1, h2, h3⟩ := hc
    injection h with h
    subst h
    refine ⟨rfl, ?_, ?_, ?_, ?_⟩
    · show 0x0800 ≤ ((m >>> 8) % 256) <<< 8 ||| m % 256
      rw [recomb16]
      omega
    · show ((m >>> 8) % 256) <<< 8 ||| m % 256 ≤ 0x0FFF
      rw [recomb16]
      omega
    · show ((((16 + p.length - 7) >>> 8) % 256) <<< 8 ||| (16 + p.length - 7) % 256) + 7
          = 16 + p.length
      rw [recomb16]
      omega
    · show (0xC0 : Nat) &&& 0xC0 = 0xC0
      decide

theorem command_from_bytes_wf {n : Nat} {bytes : List Nat} {c : Command}
    (h : Command.from_bytes n bytes = some c) : c.WF := by
  simp only [Command.from_bytes, Command.size_of] at h
  split at h
  case isTrue => exact absurd h (by simp)
  case isFalse hL =>
    split at h
    case isTrue => exact absurd h (by simp)
    case isFalse hC =>
      injection h with h
      subst h
      rw [not_ne_iff] at hL
      push_neg at hC
      obtain ⟨⟨hA1, hA2⟩, hB, hC2, hD⟩ := hC
      refine ⟨?_, ?_, ?_, ?_, ?_, ?_⟩
      · simp only [List.length_take]
        omega
      · rw [getD_take_lt _ _ _ (by norm_num), getD_take_lt _ _ _ (by norm_num)]
        exact hA1
      · rw [getD_take_lt _ _ _ (by norm_num), getD_take_lt _ _ _ (by norm_num)]
        exact hA2
      · rw [getD_take_lt _ _ _ (by norm_num), getD_take_lt _ _ _ (by norm_num)]
        simp only [List.length_drop]
        omega
      · rw [getD_take_lt _ _ _ (by norm_num)]
        exact hC2
      · rw [getD_take_lt _ _ _ (by norm_num)]
        exact hD

theorem telemetry_from_bytes_wf {n : Nat} {bytes : List Nat} {t : Telemetry}
    (h : Telemetry.from_bytes n bytes = some t) : t.WF := by
  simp only [Telemetry.from_bytes, Telemetry.size_of] at h
  split at h
  case isTrue => exact absurd h (by simp)
  case isFalse hL =>
    split at h
    case isTrue => exact absurd h (by simp)
    case isFalse hC =>
      injection h with h
      subst h
      rw [not_ne_iff] at hL
      push_neg at hC
      obtain ⟨⟨hA1, hA2⟩, hB, hC2⟩ := hC
      refine ⟨?_, ?_, ?_, ?_, ?_⟩
      · simp only [List.length_take]
        omega
      · rw [getD_take_lt _ _ _ (by norm_num), getD_take_lt _ _ _ (by norm_num)]
        exact hA1
      · rw [getD_take_lt _ _ _ (by norm_num), getD_take_lt _ _ _ (by norm_num)]
        exact hA2
      · rw [getD_take_lt _ _ _ (by norm_num), getD_take_lt _ _ _ (by norm_num)]
        simp only [List.length_drop]
        omega
      · rw [getD_take_lt _ _ _ (by norm_num)]
        exact hC2

theorem and_192_of_lt (k : Nat) (hk : k < 64) : (192 + k) &&& 192 = 192 := by
  rw [← or_eq_add_of_dvd 6 192 k ⟨3, by norm_num⟩ (by simpa using hk)]
  rw [Nat.and_comm, Nat.and_or_distrib_left]
  have h1 : (192 : Nat) &&& k = 0 := by
    rw [Nat.and_comm]
    exact (by decide : ∀ j < 64, j &&& 192 = 0) k hk
  have h2 : (192 : Nat) &&& 192 = 192 := by decide
  rw [h1, h2, Nat.or_zero]

/-- Top two bits of the high byte written back by `increment_sequence_num` are
always `11`. -/
theorem seqhdr_top_bits (x : Nat) :
    (((((x + 1) % 65536) &&& 16383) ||| 49152) >>> 8) % 256 &&& 192 = 192 := by
  have hmlt : ((x + 1) % 65536) &&& 16383 < 16384 := by
    rw [and_16383_eq_mod]
    exact Nat.mod_lt _ (by norm_num)
  rw [Nat.or_comm,
    or_eq_add_of_dvd 14 49152 _ ⟨3, by norm_num⟩ (by simpa using hmlt)]
  rw [Nat.shiftRight_eq_div_pow]
  have h2 : (49152 + (((x + 1) % 65536) &&& 16383)) / 2 ^ 8
      = 192 + (((x + 1) % 65536) &&& 16383) / 256 := by
    show _ / 256 = _
    omega
  rw [h2, Nat.mod_eq_of_lt (by omega)]
  exact and_192_of_lt _ (by omega)

theorem command_set_msg_id_wf {c : Command} (hw : c.WF) (m : Nat) :
    (c.set_msg_id m).1.WF := by
  obtain ⟨hlen, hlo, hhi, hml, hseq, hfc⟩ := hw
  simp only [Command.set_msg_id]
  split
  case isFalse => exact ⟨hlen, hlo, hhi, hml, hseq, hfc⟩
  case isTrue hm =>
    refine ⟨?_, ?_, ?_, ?_, ?_, ?_⟩
    · simp [List.length_set, hlen]
    · show 0x1800 ≤ _
      rw [getD_set_ne _ _ _ _ (by norm_num), getD_set_self _ _ _ (by omega),
        getD_set_self _ _ _ (by simp [List.length_set]; omega), recomb16]
      omega
    · rw [getD_set_ne _ _ _ _ (by norm_num), getD_set_self _ _ _ (by omega),
        getD_set_self _ _ _ (by simp [List.length_set]; omega), recomb16]
      omega
    · show (_ <<< 8 ||| _) + 7 = 8 + _
      rw [getD_set_ne _ _ _ _ (by norm_num), getD_set_ne _ _ _ _ (by norm_num),
        getD_set_ne _ _ _ _ (by norm_num), getD_set_ne _ _ _ _ (by norm_num)]
      exact hml
    · rw [getD_set_ne _ _ _ _ (by norm_num), getD_set_ne _ _ _ _ (by norm_num)]
      exact hseq
    · rw [getD_set_ne _ _ _ _ (by norm_num), getD_set_ne _ _ _ _ (by norm_num)]
      exact hfc

theorem command_set_function_code_wf {c : Command} (hw : c.WF) (f : Nat) :
    (c.set_function_code f).1.WF := by
  obtain ⟨hlen, hlo, hhi, hml, hseq, hfc⟩ := hw
  simp only [Command.set_function_code]
  split
  case isFalse => exact ⟨hlen, hlo, hhi, hml, hseq, hfc⟩
  case isTrue hf =>
    refine ⟨?_, ?_, ?_, ?_, ?_, ?_⟩
    · simp [List.length_set, hlen]
    · show 0x1800 ≤ _
      rw [getD_set_ne _ _ _ _ (by norm_num), getD_set_ne _ _ _ _ (by norm_num)]
      exact hlo
    · rw [getD_set_ne _ _ _ _ (by norm_num), getD_set_ne _ _ _ _ (by norm_num)]
      exact hhi
    · show (_ <<< 8 ||| _) + 7 = 8 + _
      rw [getD_set_ne _ _ _ _ (by norm_num), getD_set_ne _ _ _ _ (by norm_num)]
      exact hml
    · rw [getD_set_ne _ _ _ _ (by norm_num)]
      exact hseq
    · rw [getD_set_self _ _ _ (by omega)]
      rw [Nat.mod_eq_of_lt (show f < 256 by omega)]
      exact and_128_eq_zero f (by omega)

theorem telemetry_set_msg_id_wf {t : Telemetry} (hw : t.WF) (m : Nat) :
    (t.set_msg_id m).1.WF := by
  obtain ⟨hlen, hlo, hhi, hml, hseq⟩ := hw
  simp only [Telemetry.set_msg_id]
  split
  case isFalse => exact ⟨hlen, hlo, hhi, hml, hseq⟩
  case isTrue hm =>
    refine ⟨?_, ?_, ?_, ?_, ?_⟩
    · simp [List.length_set, hlen]
    · show 0x0800 ≤ _
      rw [getD_set_ne _ _ _ _ (by norm_num), getD_set_self _ _ _ (by omega),
        getD_set_self _ _ _ (by simp [List.length_set]; omega), recomb16]
      omega
    · rw [getD_set_ne _ _ _ _ (by norm_num), getD_set_self _ _ _ (by omega),
        getD_set_self _ _ _ (by simp [List.length_set]; omega), recomb16]
      omega
    · show (_ <<< 8 ||| _) + 7 = 16 + _
      rw [getD_set_ne _ _ _ _ (by norm_num), getD_set_ne _ _ _ _ (by norm_num),
        getD_set_ne _ _ _ _ (by norm_num), getD_set_ne _ _ _ _ (by norm_num)]
      exact hml
    · rw [getD_set_ne _ _ _ _ (by norm_num), getD_set_ne _ _ _ _ (by norm_num)]
      exact hseq

theorem telemetry_set_timestamp_wf {t : Telemetry} (hw : t.WF) (s n : Nat) :
    (t.set_timestamp s n).WF := by
  obtain ⟨hlen, hlo, hhi, hml, hseq⟩ := hw
  simp only [Telemetry.set_timestamp]
  refine ⟨?_, ?_, ?_, ?_, ?_⟩
  · simp [List.length_set, hlen]
  · simpa [getD_set_ne] using hlo
  · simpa [getD_set_ne] using hhi
  · simpa [getD_set_ne] using hml
  · simpa [getD_set_ne] using hseq

theorem telemetry_increment_wf {t : Telemetry} (hw : t.WF) :
    t.increment_sequence_num.WF := by
  obtain ⟨hlen, hlo, hhi, hml, hseq⟩ := hw
  simp only [Telemetry.increment_sequence_num]
  refine ⟨?_, ?_, ?_, ?_, ?_⟩
  · simp [List.length_set, hlen]
  · simpa [getD_set_ne] using hlo
  · simpa [getD_set_ne] using hhi
  · simpa [getD_set_ne] using hml
  · rw [getD_set_ne _ _ _ _ (by norm_num), getD_set_self _ _ _ (by omega)]
    exact seqhdr_top_bits _

theorem command_wf_roundtrip {c : Command} (hw : c.WF) :
    Command.from_bytes c.payload.length c.as_bytes = some c := by
  obtain ⟨hlen, hlo, hhi, hml, hseq, hfc⟩ := hw
  simp only [Command.from_bytes, Command.as_bytes, Command.size_of]
  rw [if_neg (by simp [hlen])]
  rw [List.getD_append _ _ _ _ (by omega), List.getD_append _ _ _ _ (by omega),
    List.getD_append _ _ _ _ (by omega), List.getD_append _ _ _ _ (by omega),
    List.getD_append _ _ _ _ (by omega), List.getD_append _ _ _ _ (by omega)]
  rw [if_neg (by push_neg; exact ⟨⟨hlo, hhi⟩, hml, hseq, hfc⟩)]
  rw [List.take_left' hlen, List.drop_left' hlen]

theorem telemetry_wf_roundtrip {t : Telemetry} (hw : t.WF) :
    Telemetry.from_bytes t.payload.length t.as_bytes = some t := by
  obtain ⟨hlen, hlo, hhi, hml, hseq⟩ := hw
  simp only [Telemetry.from_bytes, Telemetry.as_bytes, Telemetry.size_of]
  rw [if_neg (by simp [hlen])]
  rw [List.getD_append _ _ _ _ (by omega), List.getD_append _ _ _ _ (by omega),
    List.getD_append _ _ _ _ (by omega), List.getD_append _ _ _ _ (by omega),
    List.getD_append _ _ _ _ (by omega)]
  rw [if_neg (by push_neg; exact ⟨⟨hlo, hhi⟩, hml, hseq⟩)]
  rw [List.take_left' hlen, List.drop_left' hlen]

/-- The command packets a caller can actually hold: produced by `new` (or
`new_default`, which delegates to `new`) or by `from_bytes`, then modified by
any sequence of successful setter calls. -/
inductive Command.Valid : Command → Prop where
  | of_new (msg_id function_code : Nat) (payload : List Nat) (c : Command)
      (h : Command.new msg_id function_code payload = some c) : Command.Valid c
  | of_from_bytes (payloadSize : Nat) (bytes : List Nat) (c : Command)
      (h : Command.from_bytes payloadSize bytes = some c) : Command.Valid c
  | of_set_msg_id (c : Command) (msg_id : Nat) (hc : Command.Valid c)
      (h : (c.set_msg_id msg_id).2 = true) : Command.Valid (c.set_msg_id msg_id).1
  | of_set_function_code (c : Command) (function_code : Nat) (hc : Command.Valid c)
      (h : (c.set_function_code function_code).2 = true) :
      Command.Valid (c.set_function_code function_code).1

/-- The telemetry packets a caller can actually hold: produced by `new` (or
`new_default`, which delegates to `new`) or by `from_bytes`, then modified by
any sequence of successful setter and increment calls. -/
inductive Telemetry.Valid : Telemetry → Prop where
  | of_new (msg_id : Nat) (payload : List Nat) (t : Telemetry)
      (h : Telemetry.new msg_id payload = some t) : Telemetry.Valid t
  | of_from_bytes (payloadSize : Nat) (bytes : List Nat) (t : Telemetry)
      (h : Telemetry.from_bytes payloadSize bytes = some t) : Telemetry.Valid t
  | of_set_msg_id (t : Telemetry) (msg_id : Nat) (ht : Telemetry.Valid t)
      (h : (t.set_msg_id msg_id).2 = true) : Telemetry.Valid (t.set_msg_id msg_id).1
  | of_set_timestamp (t : Telemetry) (seconds nanoseconds : Nat) (ht : Telemetry.Valid t) :
      Telemetry.Valid (t.set_timestamp seconds nanoseconds)
  | of_increment (t : Telemetry) (ht : Telemetry.Valid t) :
      Telemetry.Valid t.increment_sequence_num

theorem command_valid_wf {c : Command} (h : c.Valid) : c.WF := by
  induction h with
  | of_new m f p c h => exact command_new_wf h
  | of_from_bytes n b c h => exact command_from_bytes_wf h
  | of_set_msg_id c m hc h ih => exact command_set_msg_id_wf ih m
  | of_set_function_code c f hc h ih => exact command_set_function_code_wf ih f

theorem telemetry_valid_wf {t : Telemetry} (h : t.Valid) : t.WF := by
  induction h with
  | of_new m p t h => exact telemetry_new_wf h
  | of_from_bytes n b t h => exact telemetry_from_bytes_wf h
  | of_set_msg_id t m ht h ih => exact telemetry_set_msg_id_wf ih m
  | of_set_timestamp t s n ht ih => exact telemetry_set_timestamp_wf ih s n
  | of_increment t ht ih => exact telemetry_increment_wf ih

/-! ### Sequence number lemmas -/

theorem length_increment (t : Telemetry) :
    t.increment_sequence_num.header.length = t.header.length := by
  simp [Telemetry.increment_sequence_num, List.length_set]

theorem sequence_number_lt (t : Telemetry) : t.sequence_number < 16384 := by
  simp only [Telemetry.sequence_number]
  have h : (((t.header.getD 2 0) <<< 8) ||| (t.header.getD 3 0)) &&& 16383 ≤ 16383 :=
    Nat.and_le_right
  omega

theorem seq_arith (s : Nat) :
    (((((((s + 1) % 65536) &&& 16383) ||| 49152) >>> 8) % 256) <<< 8 |||
        ((((s + 1) % 65536) &&& 16383) ||| 49152) % 256) &&& 16383
      = ((s &&& 16383) + 1) % 16384 := by
  have hmlt : ((s + 1) % 65536) &&& 16383 < 16384 := by
    rw [and_16383_eq_mod]
    exact Nat.mod_lt _ (by norm_num)
  have hns : (((s + 1) % 65536) &&& 16383) ||| 49152
      = 49152 + (((s + 1) % 65536) &&& 16383) := by
    rw [Nat.or_comm]
    exact or_eq_add_of_dvd 14 49152 _ ⟨3, by norm_num⟩ (by simpa using hmlt)
  rw [hns, recomb16, Nat.mod_eq_of_lt (by omega), and_16383_eq_mod, and_16383_eq_mod,
    and_16383_eq_mod]
  omega

theorem sequence_number_increment (t : Telemetry) (hlen : t.header.length = 16) :
    t.increment_sequence_num.sequence_number = (t.sequence_number + 1) % 16384 := by
  simp only [Telemetry.increment_sequence_num, Telemetry.sequence_number]
  rw [getD_set_ne _ _ _ _ (by norm_num), getD_set_self _ _ _ (by omega),
    getD_set_self _ _ _ (by simp [List.length_set]; omega)]
  exact seq_arith _

theorem increment_top_bits (t : Telemetry) (hlen : t.header.length = 16) :
    t.increment_sequence_num.header.getD 2 0 &&& 0xC0 = 0xC0 := by
  simp only [Telemetry.increment_sequence_num]
  rw [getD_set_ne _ _ _ _ (by norm_num), getD_set_self _ _ _ (by omega)]
  exact seqhdr_top_bits _

theorem sequence_number_iterate (t : Telemetry) (hlen : t.header.length = 16) (n : Nat) :
    (Telemetry.increment_sequence_num^[n] t).sequence_number
      = (t.sequence_number + n) % 16384 := by
  induction n generalizing t with
  | zero =>
    simpa using (Nat.mod_eq_of_lt (sequence_number_lt t)).symm
  | succ k ih =>
    rw [Function.iterate_succ_apply, ih _ (by rw [length_increment]; exact hlen),
      sequence_number_increment t hlen]
    omega

/-! ### Claim theorems -/

/-- C1: the claim states that `Command::new(msg_id, fc, p).msg_id() = msg_id`
(and likewise for telemetry).  The code contradicts it: both `msg_id`
accessors compute `(header[0] >> 8) | header[1]` (a right shift instead of the
left shift used by `from_bytes`), so they return only the low byte of the
message ID.  At `msg_id = 0x1800` both accessors return `0`; the
`function_code` accessor does behave as claimed. -/
theorem claim_C1_failing :
    (Command.new 0x1800 0 []).map Command.msg_id = some 0 ∧
    (Command.new 0x1800 0x7F []).map Command.function_code = some 0x7F ∧
    (Telemetry.new 0x0800 []).map Telemetry.msg_id = some 0 ∧
    (0 : Nat) ≠ 0x1800 ∧ (0 : Nat) ≠ 0x0800 := by
  decide

/-- C2: for every validly-constructed packet (built by `new`/`new_default`/
`from_bytes`, then changed by any sequence of successful setter or increment
calls), `from_bytes (as_bytes p)` succeeds and returns a packet whose header
and payload bytes equal `p`'s. -/
theorem claim_C2 :
    (∀ c : Command, c.Valid → Command.from_bytes c.payload.length c.as_bytes = some c) ∧
    (∀ t : Telemetry, t.Valid → Telemetry.from_bytes t.payload.length t.as_bytes = some t) :=
  ⟨fun _ hc => command_wf_roundtrip (command_valid_wf hc),
   fun _ ht => telemetry_wf_roundtrip (telemetry_valid_wf ht)⟩

/-- Witness for C2 at concrete packets built by `new`. -/
theorem claim_C2_witness :
    Command.from_bytes (Command.mk [24, 0, 192, 0, 0, 3, 127, 0] [9, 9]).payload.length
        (Command.mk [24, 0, 192, 0, 0, 3, 127, 0] [9, 9]).as_bytes
      = some (Command.mk [24, 0, 192, 0, 0, 3, 127, 0] [9, 9]) ∧
    Telemetry.from_bytes
        (Telemetry.mk [8, 0, 192, 0, 0, 10, 0, 0, 0, 0, 0, 0, 0, 0, 0, 0] [1]).payload.length
        (Telemetry.mk [8, 0, 192, 0, 0, 10, 0, 0, 0, 0, 0, 0, 0, 0, 0, 0] [1]).as_bytes
      = some (Telemetry.mk [8, 0, 192, 0, 0, 10, 0, 0, 0, 0, 0, 0, 0, 0, 0, 0] [1]) :=
  ⟨claim_C2.1 _ (Command.Valid.of_new 0x1800 0x7F [9, 9] _ (by decide)),
   claim_C2.2 _ (Telemetry.Valid.of_new 0x0800 [1] _ (by decide))⟩

/-- C3: on success, `new` produces exactly the specified header bytes, with
the payload stored unmodified after the header. -/
theorem claim_C3 :
    (∀ (m f : Nat) (p : List Nat) (c : Command), Command.new m f p = some c →
      c.header = [m >>> 8, m &&& 0xFF, 0xC0, 0x00,
          (Command.size_of p.length - 7) >>> 8, (Command.size_of p.length - 7) &&& 0xFF,
          f &&& 0xFF, 0x00]
        ∧ c.payload = p) ∧
    (∀ (m : Nat) (p : List Nat) (t : Telemetry), Telemetry.new m p = some t →
      t.header = [m >>> 8, m &&& 0xFF, 0xC0, 0x00,
          (Telemetry.size_of p.length - 7) >>> 8, (Telemetry.size_of p.length - 7) &&& 0xFF,
          0, 0, 0, 0, 0, 0, 0, 0, 0, 0]
        ∧ t.payload = p) := by
  constructor
  · intro m f p c h
    simp only [Command.new, Command.size_of] at h
    split at h
    case isFalse => exact absurd h (by simp)
    case isTrue hc =>
      obtain ⟨h1, h2, h3, h4⟩ := hc
      injection h with h
      subst h
      refine ⟨?_, rfl⟩
      show [_, _, _, _, _, _, _, _] = _
      simp only [Command.size_of]
      rw [and_255_eq_mod m, and_255_eq_mod (8 + p.length - 7), and_255_eq_mod f]
      rw [Nat.mod_eq_of_lt (show m >>> 8 < 256 by rw [Nat.shiftRight_eq_div_pow]; show m / 256 < 256; omega)]
      rw [Nat.mod_eq_of_lt
        (show (8 + p.length - 7) >>> 8 < 256 by
          rw [Nat.shiftRight_eq_div_pow]; show (8 + p.length - 7) / 256 < 256; omega)]
  · intro m p t h
    simp only [Telemetry.new, Telemetry.size_of] at h
    split at h
    case isFalse => exact absurd h (by simp)
    case isTrue hc =>
      obtain ⟨h1, h2, h3⟩ := hc
      injection h with h
      subst h
      refine ⟨?_, rfl⟩
      show [_, _, _, _, _, _, _, _, _, _, _, _, _, _, _, _] = _
      simp only [Telemetry.size_of]
      rw [and_255_eq_mod m, and_255_eq_mod (16 + p.length - 7)]
      rw [Nat.mod_eq_of_lt (show m >>> 8 < 256 by rw [Nat.shiftRight_eq_div_pow]; show m / 256 < 256; omega)]
      rw [Nat.mod_eq_of_lt
        (show (16 + p.length - 7) >>> 8 < 256 by
          rw [Nat.shiftRight_eq_div_pow]; show (16 + p.length - 7) / 256 < 256; omega)]

/-- Witness for C3 at concrete inputs accepted by `new`. -/
theorem claim_C3_witness :
    ((Command.mk [24, 0, 192, 0, 0, 3, 127, 0] [9, 9]).header
        = [0x1800 >>> 8, 0x1800 &&& 0xFF, 0xC0, 0x00,
            (Command.size_of (List.length [9, 9]) - 7) >>> 8,
            (Command.size_of (List.length [9, 9]) - 7) &&& 0xFF, 0x7F &&& 0xFF, 0x00]
      ∧ (Command.mk [24, 0, 192, 0, 0, 3, 127, 0] [9, 9]).payload = [9, 9]) ∧
    ((Telemetry.mk [8, 0, 192, 0, 0, 10, 0, 0, 0, 0, 0, 0, 0, 0, 0, 0] [1]).header
        = [0x0800 >>> 8, 0x0800 &&& 0xFF, 0xC0, 0x00,
            (Telemetry.size_of (List.length [1]) - 7) >>> 8,
            (Telemetry.size_of (List.length [1]) - 7) &&& 0xFF,
            0, 0, 0, 0, 0, 0, 0, 0, 0, 0]
      ∧ (Telemetry.mk [8, 0, 192, 0, 0, 10, 0, 0, 0, 0, 0, 0, 0, 0, 0, 0] [1]).payload = [1]) :=
  ⟨claim_C3.1 0x1800 0x7F [9, 9] _ (by decide),
   claim_C3.2 0x0800 [1] _ (by decide)⟩

/-- C4: `new` fails exactly when a field is out of range or the length field
would overflow 16 bits; on error no packet is produced (it returns `none`). -/
theorem claim_C4 :
    (∀ (m f : Nat) (p : List Nat),
      Command.new m f p = none ↔
        ¬(0x1800 ≤ m ∧ m ≤ 0x1FFF) ∨ 0x7F < f ∨ 0xFFFF < Command.size_of p.length - 7) ∧
    (∀ (m : Nat) (p : List Nat),
      Telemetry.new m p = none ↔
        ¬(0x0800 ≤ m ∧ m ≤ 0x0FFF) ∨ 0xFFFF < Telemetry.size_of p.length - 7) := by
  constructor
  · intro m f p
    simp only [Command.new, Command.size_of]
    split
    case isTrue hc => simp only [reduceCtorEq, false_iff]; omega
    case isFalse hc => simp only [true_iff]; omega
  · intro m p
    simp only [Telemetry.new, Telemetry.size_of]
    split
    case isTrue hc => simp only [reduceCtorEq, false_iff]; omega
    case isFalse hc => simp only [true_iff]; omega

/-- C5: `from_bytes` fails exactly on a length mismatch, an out-of-range
message ID, an inconsistent length field, bad sequence-flag bits, or (for
commands only) a set function-code high bit; on rejection no packet is
produced (it returns `none`). -/
theorem claim_C5 (n : Nat) (b : List Nat) (hb : ∀ x ∈ b, x < 256) :
    (Command.from_bytes n b = none ↔
      b.length ≠ Command.size_of n
      ∨ ¬(0x1800 ≤ 256 * b.getD 0 0 + b.getD 1 0 ∧ 256 * b.getD 0 0 + b.getD 1 0 ≤ 0x1FFF)
      ∨ 256 * b.getD 4 0 + b.getD 5 0 + 7 ≠ Command.size_of n
      ∨ b.getD 2 0 &&& 0xC0 ≠ 0xC0
      ∨ b.getD 6 0 &&& 0x80 ≠ 0) ∧
    (Telemetry.from_bytes n b = none ↔
      b.length ≠ Telemetry.size_of n
      ∨ ¬(0x0800 ≤ 256 * b.getD 0 0 + b.getD 1 0 ∧ 256 * b.getD 0 0 + b.getD 1 0 ≤ 0x0FFF)
      ∨ 256 * b.getD 4 0 + b.getD 5 0 + 7 ≠ Telemetry.size_of n
      ∨ b.getD 2 0 &&& 0xC0 ≠ 0xC0) := by
  have e01 : (b.getD 0 0) <<< 8 ||| b.getD 1 0 = 256 * b.getD 0 0 + b.getD 1 0 :=
    or8_eq_add _ _ (getD_lt_256 b hb 1)
  have e45 : (b.getD 4 0) <<< 8 ||| b.getD 5 0 = 256 * b.getD 4 0 + b.getD 5 0 :=
    or8_eq_add _ _ (getD_lt_256 b hb 5)
  constructor
  · simp only [Command.from_bytes]
    split
    case isTrue hL =>
      simp only [true_iff]
      exact Or.inl hL
    case isFalse hL =>
      split
      case isTrue hcond =>
        rw [e01, e45] at hcond
        simp only [true_iff]
        tauto
      case isFalse hcond =>
        rw [e01, e45] at hcond
        simp only [reduceCtorEq, false_iff]
        push_neg at hcond
        push_neg
        rw [not_ne_iff] at hL
        exact ⟨hL, hcond.1, hcond.2.1, hcond.2.2.1, hcond.2.2.2⟩
  · simp only [Telemetry.from_bytes]
    split
    case isTrue hL =>
      simp only [true_iff]
      exact Or.inl hL
    case isFalse hL =>
      split
      case isTrue hcond =>
        rw [e01, e45] at hcond
        simp only [true_iff]
        tauto
      case isFalse hcond =>
        rw [e01, e45] at hcond
        simp only [reduceCtorEq, false_iff]
        push_neg at hcond
        push_neg
        rw [not_ne_iff] at hL
        exact ⟨hL, hcond.1, hcond.2.1, hcond.2.2⟩

/-- Witness for C5 at a concrete byte buffer: a valid 8-byte command frame is
accepted by `Command::from_bytes` (no disjunct holds) and rejected by
`Telemetry::from_bytes` on length. -/
theorem claim_C5_witness :
    ((Command.from_bytes 0 [24, 0, 192, 0, 0, 1, 0, 0] = none ↔
      List.length [24, 0, 192, 0, 0, 1, 0, 0] ≠ Command.size_of 0
      ∨ ¬(0x1800 ≤ 256 * List.getD [24, 0, 192, 0, 0, 1, 0, 0] 0 0
            + List.getD [24, 0, 192, 0, 0, 1, 0, 0] 1 0
          ∧ 256 * List.getD [24, 0, 192, 0, 0, 1, 0, 0] 0 0
            + List.getD [24, 0, 192, 0, 0, 1, 0, 0] 1 0 ≤ 0x1FFF)
      ∨ 256 * List.getD [24, 0, 192, 0, 0, 1, 0, 0] 4 0
          + List.getD [24, 0, 192, 0, 0, 1, 0, 0] 5 0 + 7 ≠ Command.size_of 0
      ∨ List.getD [24, 0, 192, 0, 0, 1, 0, 0] 2 0 &&& 0xC0 ≠ 0xC0
      ∨ List.getD [24, 0, 192, 0, 0, 1, 0, 0] 6 0 &&& 0x80 ≠ 0) ∧
    (Telemetry.from_bytes 0 [24, 0, 192, 0, 0, 1, 0, 0] = none ↔
      List.length [24, 0, 192, 0, 0, 1, 0, 0] ≠ Telemetry.size_of 0
      ∨ ¬(0x0800 ≤ 256 * List.getD [24, 0, 192, 0, 0, 1, 0, 0] 0 0
            + List.getD [24, 0, 192, 0, 0, 1, 0, 0] 1 0
          ∧ 256 * List.getD [24, 0, 192, 0, 0, 1, 0, 0] 0 0
            + List.getD [24, 0, 192, 0, 0, 1, 0, 0] 1 0 ≤ 0x0FFF)
      ∨ 256 * List.getD [24, 0, 192, 0, 0, 1, 0, 0] 4 0
          + List.getD [24, 0, 192, 0, 0, 1, 0, 0] 5 0 + 7 ≠ Telemetry.size_of 0
      ∨ List.getD [24, 0, 192, 0, 0, 1, 0, 0] 2 0 &&& 0xC0 ≠ 0xC0)) :=
  claim_C5 0 [24, 0, 192, 0, 0, 1, 0, 0] (by decide)

/-- C6: `increment_sequence_num` (total, hence never failing) increments the
14-bit sequence number modulo 0x4000, forces the top two bits of header byte 2
to `11`, and 0x4000 applications restore the original sequence number. -/
theorem claim_C6 (t : Telemetry) (hlen : t.header.length = 16) :
    t.increment_sequence_num.sequence_number = (t.sequence_number + 1) % 0x4000 ∧
    t.increment_sequence_num.header.getD 2 0 &&& 0xC0 = 0xC0 ∧
    (Telemetry.increment_sequence_num^[0x4000] t).sequence_number = t.sequence_number := by
  refine ⟨sequence_number_increment t hlen, increment_top_bits t hlen, ?_⟩
  rw [sequence_number_iterate t hlen]
  have h := sequence_number_lt t
  omega

/-- Witness for C6 at a concrete telemetry packet built by `new`. -/
theorem claim_C6_witness :
    (Telemetry.mk [8, 0, 192, 0, 0, 9, 0, 0, 0, 0, 0, 0, 0, 0, 0, 0]
        []).increment_sequence_num.sequence_number
      = ((Telemetry.mk [8, 0, 192, 0, 0, 9, 0, 0, 0, 0, 0, 0, 0, 0, 0, 0]
          []).sequence_number + 1) % 0x4000 ∧
    (Telemetry.mk [8, 0, 192, 0, 0, 9, 0, 0, 0, 0, 0, 0, 0, 0, 0, 0]
        []).increment_sequence_num.header.getD 2 0 &&& 0xC0 = 0xC0 ∧
    (Telemetry.increment_sequence_num^[0x4000]
        (Telemetry.mk [8, 0, 192, 0, 0, 9, 0, 0, 0, 0, 0, 0, 0, 0, 0, 0] [])).sequence_number
      = (Telemetry.mk [8, 0, 192, 0, 0, 9, 0, 0, 0, 0, 0, 0, 0, 0, 0, 0]
          []).sequence_number :=
  claim_C6 (Telemetry.mk [8, 0, 192, 0, 0, 9, 0, 0, 0, 0, 0, 0, 0, 0, 0, 0] []) (by decide)

/-- C7 counterexample: the claim asserts
`timestamp() = (seconds mod 2^32, nanoseconds * 65536 / 10^9)` for every
`u32` value of `nanoseconds`.  At `nanoseconds = 10^9` the claimed subseconds
value is `65536`, but the code stores only the low 16 bits of the computed
subseconds, so the accessor returns `0`. -/
theorem claim_C7_counterexample :
    Telemetry.new 0x0800 []
        = some (Telemetry.mk [8, 0, 192, 0, 0, 9, 0, 0, 0, 0, 0, 0, 0, 0, 0, 0] []) ∧
    ((Telemetry.mk [8, 0, 192, 0, 0, 9, 0, 0, 0, 0, 0, 0, 0, 0, 0, 0]
        []).set_timestamp 0 1000000000).timestamp
      ≠ (0 % 4294967296, 1000000000 * 65536 / 1000000000) := by
  decide

/-- C7 (amended): after `set_timestamp(seconds, nanoseconds)`, `timestamp()`
returns `(seconds mod 2^32, ((nanoseconds * 65536) / 10^9) mod 2^16)` — the
computed subseconds value is truncated to its low 16 bits when stored; in
particular `set_timestamp(100, 500000000)` yields `(100, 32768)` and
`set_timestamp(0, 999999999)` yields subseconds `65535`. -/
theorem claim_C7_amended (t : Telemetry) (hlen : t.header.length = 16) :
    (∀ seconds nanoseconds : Nat,
      (t.set_timestamp seconds nanoseconds).timestamp
        = (seconds % 4294967296, nanoseconds * 65536 / 1000000000 % 65536)) ∧
    (t.set_timestamp 100 500000000).timestamp = (100, 32768) ∧
    (t.set_timestamp 0 999999999).timestamp = (0, 65535) := by
  have hgen : ∀ s n : Nat,
      (t.set_timestamp s n).timestamp = (s % 4294967296, n * 65536 / 1000000000 % 65536) := by
    intro s n
    simp only [Telemetry.set_timestamp, Telemetry.timestamp]
    rw [Prod.mk.injEq]
    constructor
    · rw [getD_set_ne _ _ _ _ (by norm_num), getD_set_ne _ _ _ _ (by norm_num),
        getD_set_ne _ _ _ _ (by norm_num), getD_set_ne _ _ _ _ (by norm_num),
        getD_set_ne _ _ _ _ (by norm_num),
        getD_set_self _ _ _ (by omega),
        getD_set_ne _ _ _ _ (by norm_num), getD_set_ne _ _ _ _ (by norm_num),
        getD_set_ne _ _ _ _ (by norm_num), getD_set_ne _ _ _ _ (by norm_num),
        getD_set_self _ _ _ (by simp [List.length_set]; omega),
        getD_set_ne _ _ _ _ (by norm_num), getD_set_ne _ _ _ _ (by norm_num),
        getD_set_ne _ _ _ _ (by norm_num),
        getD_set_self _ _ _ (by simp [List.length_set]; omega),
        getD_set_ne _ _ _ _ (by norm_num), getD_set_ne _ _ _ _ (by norm_num),
        getD_set_self _ _ _ (by simp [List.length_set]; omega)]
      exact recomb32 s
    · rw [getD_set_ne _ _ _ _ (by norm_num),
        getD_set_self _ _ _ (by simp [List.length_set]; omega),
        getD_set_self _ _ _ (by simp [List.length_set]; omega)]
      show ((n * 65536 / 1000000000) >>> 8 % 256) <<< 8 ||| (n * 65536 / 1000000000) % 256 = _
      exact recomb16 _
  exact ⟨hgen, by rw [hgen], by rw [hgen]⟩

/-- Witness for C7 (amended) at a concrete telemetry packet built by `new`. -/
theorem claim_C7_witness :
    ((Telemetry.mk [8, 0, 192, 0, 0, 9, 0, 0, 0, 0, 0, 0, 0, 0, 0, 0]
        []).set_timestamp 1000000000000 1000000000).timestamp
      = (1000000000000 % 4294967296, 1000000000 * 65536 / 1000000000 % 65536) ∧
    ((Telemetry.mk [8, 0, 192, 0, 0, 9, 0, 0, 0, 0, 0, 0, 0, 0, 0, 0]
        []).set_timestamp 100 500000000).timestamp = (100, 32768) ∧
    ((Telemetry.mk [8, 0, 192, 0, 0, 9, 0, 0, 0, 0, 0, 0, 0, 0, 0, 0]
        []).set_timestamp 0 999999999).timestamp = (0, 65535) :=
  let h := claim_C7_amended
    (Telemetry.mk [8, 0, 192, 0, 0, 9, 0, 0, 0, 0, 0, 0, 0, 0, 0, 0] []) (by decide)
  ⟨h.1 1000000000000 1000000000, h.2.1, h.2.2⟩

/-- C8: each setter succeeds exactly on the range its constructor checks for
that field (failing exactly when `new` would reject the same field value); on
success it rewrites only the header bytes of that field and leaves everything
else (other header bytes, header length, payload) unchanged; on failure it
leaves the packet entirely unchanged. -/
theorem claim_C8 :
    (∀ (c : Command) (m : Nat), c.header.length = 8 →
      ((c.set_msg_id m).2 = true ↔ 0x1800 ≤ m ∧ m ≤ 0x1FFF) ∧
      ((c.set_msg_id m).2 = false ↔ Command.new m 0 [] = none) ∧
      ((c.set_msg_id m).2 = true →
        (c.set_msg_id m).1.header.getD 0 0 = (m >>> 8) % 256 ∧
        (c.set_msg_id m).1.header.getD 1 0 = m % 256 ∧
        (∀ i, 2 ≤ i → (c.set_msg_id m).1.header.getD i 0 = c.header.getD i 0) ∧
        (c.set_msg_id m).1.header.length = c.header.length ∧
        (c.set_msg_id m).1.payload = c.payload) ∧
      ((c.set_msg_id m).2 = false → (c.set_msg_id m).1 = c)) ∧
    (∀ (c : Command) (f : Nat), c.header.length = 8 →
      ((c.set_function_code f).2 = true ↔ f ≤ 0x7F) ∧
      ((c.set_function_code f).2 = false ↔ Command.new 0x1800 f [] = none) ∧
      ((c.set_function_code f).2 = true →
        (c.set_function_code f).1.header.getD 6 0 = f % 256 ∧
        (∀ i, i ≠ 6 → (c.set_function_code f).1.header.getD i 0 = c.header.getD i 0) ∧
        (c.set_function_code f).1.header.length = c.header.length ∧
        (c.set_function_code f).1.payload = c.payload) ∧
      ((c.set_function_code f).2 = false → (c.set_function_code f).1 = c)) ∧
    (∀ (t : Telemetry) (m : Nat), t.header.length = 16 →
      ((t.set_msg_id m).2 = true ↔ 0x0800 ≤ m ∧ m ≤ 0x0FFF) ∧
      ((t.set_msg_id m).2 = false ↔ Telemetry.new m [] = none) ∧
      ((t.set_msg_id m).2 = true →
        (t.set_msg_id m).1.header.getD 0 0 = (m >>> 8) % 256 ∧
        (t.set_msg_id m).1.header.getD 1 0 = m % 256 ∧
        (∀ i, 2 ≤ i → (t.set_msg_id m).1.header.getD i 0 = t.header.getD i 0) ∧
        (t.set_msg_id m).1.header.length = t.header.length ∧
        (t.set_msg_id m).1.payload = t.payload) ∧
      ((t.set_msg_id m).2 = false → (t.set_msg_id m).1 = t)) := by
  refine ⟨?_, ?_, ?_⟩
  · intro c m hlen
    by_cases hc : 0x1800 ≤ m ∧ m ≤ 0x1FFF
    · simp only [Command.set_msg_id, if_pos hc]
      refine ⟨by simp [hc], ?_, ?_, by simp⟩
      · simp only [Command.new, Command.size_of]
        rw [if_pos (by exact ⟨hc.1, hc.2, by norm_num, by norm_num⟩)]
        simp
      · intro _
        refine ⟨?_, ?_, ?_, by simp [List.length_set], by trivial⟩
        · rw [getD_set_ne _ _ _ _ (by norm_num), getD_set_self _ _ _ (by omega)]
        · rw [getD_set_self _ _ _ (by simp [List.length_set]; omega)]
        · intro i hi
          rw [getD_set_ne _ _ _ _ (by omega), getD_set_ne _ _ _ _ (by omega)]
    · simp only [Command.set_msg_id, if_neg hc]
      refine ⟨by simp [hc], ?_, by simp, by simp⟩
      simp only [Command.new, Command.size_of]
      rw [if_neg (by intro hh; exact hc ⟨hh.1, hh.2.1⟩)]
      simp
  · intro c f hlen
    by_cases hc : f ≤ 0x7F
    · simp only [Command.set_function_code, if_pos hc]
      refine ⟨by simp [hc], ?_, ?_, by simp⟩
      · simp only [Command.new, Command.size_of]
        rw [if_pos (by exact ⟨by norm_num, by norm_num, hc, by norm_num⟩)]
        simp
      · intro _
        refine ⟨?_, ?_, by simp [List.length_set], by trivial⟩
        · rw [getD_set_self _ _ _ (by omega)]
        · intro i hi
          rw [getD_set_ne _ _ _ _ (by omega)]
    · simp only [Command.set_function_code, if_neg hc]
      refine ⟨by simp [hc], ?_, by simp, by simp⟩
      simp only [Command.new, Command.size_of]
      rw [if_neg (by intro hh; exact hc hh.2.2.1)]
      simp
  · intro t m hlen
    by_cases hc : 0x0800 ≤ m ∧ m ≤ 0x0FFF
    · simp only [Telemetry.set_msg_id, if_pos hc]
      refine ⟨by simp [hc], ?_, ?_, by simp⟩
      · simp only [Telemetry.new, Telemetry.size_of]
        rw [if_pos (by exact ⟨hc.1, hc.2, by norm_num⟩)]
        simp
      · intro _
        refine ⟨?_, ?_, ?_, by simp [List.length_set], by trivial⟩
        · rw [getD_set_ne _ _ _ _ (by norm_num), getD_set_self _ _ _ (by omega)]
        · rw [getD_set_self _ _ _ (by simp [List.length_set]; omega)]
        · intro i hi
          rw [getD_set_ne _ _ _ _ (by omega), getD_set_ne _ _ _ _ (by omega)]
    · simp only [Telemetry.set_msg_id, if_neg hc]
      refine ⟨by simp [hc], ?_, by simp, by simp⟩
      simp only [Telemetry.new, Telemetry.size_of]
      rw [if_neg (by intro hh; exact hc ⟨hh.1, hh.2.1⟩)]
      simp

/-- Witness for C8 at concrete packets built by `new`. -/
theorem claim_C8_witness :
    ((Command.mk [24, 0, 192, 0, 0, 3, 127, 0] [9, 9]).set_msg_id 0x1FFF).2 = true ∧
    ((Command.mk [24, 0, 192, 0, 0, 3, 127, 0] [9, 9]).set_msg_id 0x1FFF).1.header.getD 2 0
      = (Command.mk [24, 0, 192, 0, 0, 3, 127, 0] [9, 9]).header.getD 2 0 ∧
    ((Command.mk [24, 0, 192, 0, 0, 3, 127, 0] [9, 9]).set_msg_id 0x2000).1
      = Command.mk [24, 0, 192, 0, 0, 3, 127, 0] [9, 9] ∧
    ((Command.mk [24, 0, 192, 0, 0, 3, 127, 0] [9, 9]).set_function_code 0x80).1
      = Command.mk [24, 0, 192, 0, 0, 3, 127, 0] [9, 9] ∧
    ((Telemetry.mk [8, 0, 192, 0, 0, 9, 0, 0, 0, 0, 0, 0, 0, 0, 0, 0] []).set_msg_id 0x0FFF).2
      = true := by
  have h1 := claim_C8.1 (Command.mk [24, 0, 192, 0, 0, 3, 127, 0] [9, 9]) 0x1FFF (by decide)
  have h2 := claim_C8.1 (Command.mk [24, 0, 192, 0, 0, 3, 127, 0] [9, 9]) 0x2000 (by decide)
  have h3 := claim_C8.2.1 (Command.mk [24, 0, 192, 0, 0, 3, 127, 0] [9, 9]) 0x80 (by decide)
  have h4 := claim_C8.2.2 (Telemetry.mk [8, 0, 192, 0, 0, 9, 0, 0, 0, 0, 0, 0, 0, 0, 0, 0] [])
    0x0FFF (by decide)
  refine ⟨h1.1.mpr (by norm_num), ?_, ?_, ?_, h4.1.mpr (by norm_num)⟩
  · exact (h1.2.2.1 (h1.1.mpr (by norm_num))).2.2.1 2 (by norm_num)
  · exact h2.2.2.2 (by decide)
  · exact h3.2.2.2 (by decide)

/-- C9: for capacity at least 1, `fill_char_array` copies the first
`min (len s) M` input bytes (`M = N - 1` when null termination is required,
else `N`), zero-fills the rest, and reports truncation exactly when the input
is longer than `M`, or exactly `M` long and free of any `0x00` byte. -/
theorem claim_C9 (s : List Nat) (N : Nat) (ensure : Bool) (hN : 1 ≤ N) :
    ∃ out trunc, fill_char_array N s ensure = some (out, trunc) ∧
      out = s.take (min s.length (if ensure then N - 1 else N))
        ++ List.replicate (N - min s.length (if ensure then N - 1 else N)) 0 ∧
      (trunc = true ↔ ((if ensure then N - 1 else N) < s.length
        ∨ (s.length = (if ensure then N - 1 else N) ∧ ¬ 0 ∈ s))) := by
  have hguard : ¬(ensure = true ∧ N = 0) := by
    rintro ⟨_, rfl⟩
    omega
  simp only [fill_char_array, if_neg hguard]
  refine ⟨_, _, rfl, ?_, ?_⟩
  · rw [foldl_set_range s (List.replicate N 0) (min s.length (if ensure then N - 1 else N))
      (Nat.min_le_left _ _)
      (by simp only [List.length_replicate]; split <;> omega),
      List.drop_replicate]
  · have hmem : (∃ x, x ∈ s ∧ 0 = x) ↔ 0 ∈ s :=
      ⟨fun ⟨x, hx, he⟩ => he ▸ hx, fun h => ⟨0, h, rfl⟩⟩
    simp only [Bool.or_eq_true, Bool.and_eq_true, decide_eq_true_eq, Bool.not_eq_true',
      List.any_eq_false, List.any_eq_true, beq_iff_eq]
    constructor
    · rintro (h | ⟨h1, h2⟩)
      · exact Or.inl h
      · refine Or.inr ⟨h1, fun hin => ?_⟩
        have := h2 0 hin
        simp at this
    · rintro (h | ⟨h1, h2⟩)
      · exact Or.inl h
      · refine Or.inr ⟨h1, fun x hx => ?_⟩
        intro he
        exact h2 (he ▸ hx)

/-- Witness for C9 at a concrete input that is truncated. -/
theorem claim_C9_witness :
    ∃ out trunc, fill_char_array 2 [65, 66, 67] true = some (out, trunc) ∧
      out = List.take (min (List.length [65, 66, 67]) (if true then 2 - 1 else 2)) [65, 66, 67]
        ++ List.replicate (2 - min (List.length [65, 66, 67]) (if true then 2 - 1 else 2)) 0 ∧
      (trunc = true ↔ ((if true then 2 - 1 else 2) < List.length [65, 66, 67]
        ∨ (List.length [65, 66, 67] = (if true then 2 - 1 else 2) ∧ ¬ 0 ∈ [65, 66, 67]))) :=
  claim_C9 [65, 66, 67] 2 true (by norm_num)

/-- C10: with capacity `N = 0` and `ensure_null_termination = true`, the
source computes `N - 1` with an underflowing unsigned subtraction, so the call
panics instead of returning an (array, truncated) pair (a subtraction-overflow
panic in debug builds; in release builds the wrapped bound leads to an
out-of-bounds write panic for any non-empty input); the model returns `none`. -/
theorem claim_C10 (s : List Nat) (h : s ≠ []) : fill_char_array 0 s true = none := by
  simp [fill_char_array]

/-- Witness for C10 at a concrete non-empty input. -/
theorem claim_C10_witness : [1] ≠ ([] : List Nat) ∧ fill_char_array 0 [1] true = none :=
  ⟨by decide, claim_C10 [1] (by decide)⟩

end Ccsds
